import Mathlib

/-!
Verification of the dev-horoscope repository (src/main.py).

The file shallowly embeds the two components of the program:

* `analyze_code` (src/main.py lines 6-37): line metrics via Python
  `str.splitlines`, comment / TODO classification, and AST-based function
  counting and average-length computation.  The Python AST produced by
  `ast.parse` is modelled by the inductive type `PyNode`; `analyze_code`
  receives the parse outcome (`Except ParseError PyNode`) as an explicit
  argument, standing for the call `ast.parse(source)`.
* `generate_horoscope` (src/main.py lines 40-100): six threshold rule
  groups producing a list of messages, joined into one bulleted string.

Python `float` arithmetic on `avg_func_length` and the comment ratio is
modelled with exact rationals (`ℚ`); all quantities compared against the
thresholds 0.05, 0.20, 15, 50 are quotients of small integers, where IEEE
double comparison agrees with the exact rational comparison.
-/

namespace DevHoroscope

/-- Line-boundary characters recognized by Python `str.splitlines`:
LF, CR, VT, FF, FS, GS, RS, NEL, LINE SEPARATOR, PARAGRAPH SEPARATOR
(CRLF is handled as a single boundary by the splitter itself). -/
def lineBoundaryChars : List Char :=
  [Char.ofNat 10, Char.ofNat 13, Char.ofNat 11, Char.ofNat 12,
   Char.ofNat 28, Char.ofNat 29, Char.ofNat 30, Char.ofNat 133,
   Char.ofNat 8232, Char.ofNat 8233]

/-- Whether a character is a line boundary for `str.splitlines`. -/
def isLineBoundary (c : Char) : Bool := lineBoundaryChars.contains c

/-- The carriage-return character. -/
def carriageReturn : Char := Char.ofNat 13

/-- The line-feed character. -/
def lineFeed : Char := Char.ofNat 10

/-- Core of Python `str.splitlines`: scan the character list, accumulating
the current line (reversed) in `acc`; a boundary character terminates the
current line (CR immediately followed by LF counts as one boundary); at the
end of input the pending characters, if any, form a final line. -/
def splitLinesAux : List Char → List Char → List String
  | [], acc => if acc.isEmpty then [] else [String.mk acc.reverse]
  | [c], acc =>
    if c = carriageReturn then [String.mk acc.reverse]
    else if isLineBoundary c then [String.mk acc.reverse]
    else [String.mk (c :: acc).reverse]
  | c :: d :: rest, acc =>
    if c = carriageReturn then
      if d = lineFeed then
        String.mk acc.reverse :: splitLinesAux rest []
      else
        String.mk acc.reverse :: splitLinesAux (d :: rest) []
    else if isLineBoundary c then
      String.mk acc.reverse :: splitLinesAux (d :: rest) []
    else
      splitLinesAux (d :: rest) (c :: acc)

/-- Python `source.splitlines()` (src/main.py line 13). -/
def pySplitlines (s : String) : List String := splitLinesAux s.data []

/-- Characters for which Python `str.isspace` is true (stripped by
`str.strip`): ASCII whitespace, the separator controls 0x1c-0x1f, NEL,
NBSP and the Unicode space separators. -/
def pySpaceChars : List Char :=
  [Char.ofNat 9, Char.ofNat 10, Char.ofNat 11, Char.ofNat 12, Char.ofNat 13,
   Char.ofNat 28, Char.ofNat 29, Char.ofNat 30, Char.ofNat 31, Char.ofNat 32,
   Char.ofNat 133, Char.ofNat 160, Char.ofNat 5760,
   Char.ofNat 8192, Char.ofNat 8193, Char.ofNat 8194, Char.ofNat 8195,
   Char.ofNat 8196, Char.ofNat 8197, Char.ofNat 8198, Char.ofNat 8199,
   Char.ofNat 8200, Char.ofNat 8201, Char.ofNat 8202,
   Char.ofNat 8232, Char.ofNat 8233, Char.ofNat 8239, Char.ofNat 8287,
   Char.ofNat 12288]

/-- Whether a character is Python whitespace. -/
def isPySpace (c : Char) : Bool := pySpaceChars.contains c

/-- Python `line.strip()` on the underlying character list: drop whitespace
from both ends. -/
def pyStripChars (cs : List Char) : List Char :=
  ((cs.dropWhile isPySpace).reverse.dropWhile isPySpace).reverse

/-- Python `line.strip()`. -/
def pyStrip (s : String) : String := String.mk (pyStripChars s.data)

/-- The hash character starting a Python single-line comment. -/
def hashChar : Char := Char.ofNat 35

/-- Python `s.startswith("#")`: the first character is `#`. -/
def pyStartsWithHash (s : String) : Bool :=
  match s.data with
  | [] => false
  | c :: _ => c = hashChar

/-- Whether the comment classifier of src/main.py line 15 accepts a line:
`line.strip().startswith("#")`. -/
def isCommentLine (line : String) : Bool := pyStartsWithHash (pyStrip line)

/-- Whether `needle` occurs at the head of `hay`. -/
def beginsWith : List Char → List Char → Bool
  | [], _ => true
  | _ :: _, [] => false
  | a :: as, b :: bs => a = b && beginsWith as bs

/-- Whether `needle` occurs contiguously anywhere in `hay`
(Python `needle in hay` on strings). -/
def containsSeq (needle : List Char) : List Char → Bool
  | [] => beginsWith needle []
  | c :: rest => beginsWith needle (c :: rest) || containsSeq needle rest

/-- The character list of the marker "TODO". -/
def todoMarker : List Char := [Char.ofNat 84, Char.ofNat 79, Char.ofNat 68, Char.ofNat 79]

/-- Whether the TODO classifier of src/main.py line 16 accepts a line:
`"TODO" in line.upper()`.  Python `str.upper` is modelled character-wise by
`Char.toUpper`, which agrees with Python on the ASCII letters relevant to
the marker. -/
def isTodoLine (line : String) : Bool :=
  containsSeq todoMarker (line.data.map Char.toUpper)

/-- A Python abstract-syntax-tree node, as far as src/main.py inspects it:
the traversal of `ast.walk` only needs each node's children, and the
classification `isinstance(node, ast.FunctionDef)` distinguishes named
function definitions from async function definitions, lambdas and every
other node kind.  `pos` models the `lineno` / `end_lineno` attribute pair
when present. -/
inductive PyNode : Type where
  | module (children : List PyNode)
  | functionDef (name : String) (pos : Option (Nat × Nat)) (children : List PyNode)
  | asyncFunctionDef (name : String) (pos : Option (Nat × Nat)) (children : List PyNode)
  | lambdaExpr (children : List PyNode)
  | other (children : List PyNode)

/-- The children of a node, in order. -/
def childrenOf : PyNode → List PyNode
  | .module cs => cs
  | .functionDef _ _ cs => cs
  | .asyncFunctionDef _ _ cs => cs
  | .lambdaExpr cs => cs
  | .other cs => cs

mutual

/-- Size of a node: one plus the sizes of all descendants. -/
def nodeSize : PyNode → Nat
  | .module cs => 1 + nodeListSize cs
  | .functionDef _ _ cs => 1 + nodeListSize cs
  | .asyncFunctionDef _ _ cs => 1 + nodeListSize cs
  | .lambdaExpr cs => 1 + nodeListSize cs
  | .other cs => 1 + nodeListSize cs

/-- Total size of a list of nodes. -/
def nodeListSize : List PyNode → Nat
  | [] => 0
  | n :: ns => nodeSize n + nodeListSize ns

end

theorem nodeListSize_append (a b : List PyNode) :
    nodeListSize (a ++ b) = nodeListSize a + nodeListSize b := by
  induction a with
  | nil => simp [nodeListSize]
  | cons n ns ih => simp [nodeListSize, ih, Nat.add_assoc]

theorem nodeListSize_children_lt (n : PyNode) :
    nodeListSize (childrenOf n) < nodeSize n := by
  cases n <;> simp [childrenOf, nodeSize]

/-- Python `ast.walk` (src/main.py line 21): breadth-first traversal of the
tree, yielding every node.  The queue starts with the root; each step yields
the head and appends its children to the queue. -/
def walkBFS : List PyNode → List PyNode
  | [] => []
  | n :: q => n :: walkBFS (q ++ childrenOf n)
termination_by l => nodeListSize l
decreasing_by
  simp [nodeListSize, nodeListSize_append]
  have h := nodeListSize_children_lt n
  omega

/-- The `isinstance(node, ast.FunctionDef)` test of src/main.py line 21. -/
def isFunctionDefNode : PyNode → Bool
  | .functionDef _ _ _ => true
  | _ => false

mutual

/-- Specification-side count: the number of named function-definition nodes
anywhere in the tree, at any nesting depth; async function definitions and
lambdas contribute only through their children, never themselves. -/
def countFD : PyNode → Nat
  | .module cs => countFDList cs
  | .functionDef _ _ cs => 1 + countFDList cs
  | .asyncFunctionDef _ _ cs => countFDList cs
  | .lambdaExpr cs => countFDList cs
  | .other cs => countFDList cs

/-- Total `countFD` over a list of nodes. -/
def countFDList : List PyNode → Nat
  | [] => 0
  | n :: ns => countFD n + countFDList ns

end

/-- The span computation of src/main.py lines 27-28 for a single collected
function node: `func.end_lineno - func.lineno + 1` when both attributes are
present, skipped otherwise. -/
def spanOf : PyNode → Option Int
  | .functionDef _ (some p) _ => some ((p.2 : Int) - (p.1 : Int) + 1)
  | _ => none

/-- The loop of src/main.py lines 25-28: collect the spans of the function
nodes that carry position information. -/
def collectFuncLengths (func_defs : List PyNode) : List Int :=
  func_defs.filterMap spanOf

/-- Well-formedness of one node's position data, guaranteed by the CPython
parser: when a function-definition node carries positions,
`lineno ≤ end_lineno`. -/
def nodeWfB : PyNode → Bool
  | .functionDef _ (some p) _ => decide (p.1 ≤ p.2)
  | _ => true

/-- Well-formedness of every node in a tree (parser guarantee). -/
def wfPositions (t : PyNode) : Bool := (walkBFS [t]).all nodeWfB

/-- The error raised by `ast.parse` on syntactically invalid source text
(Python `SyntaxError`), carrying the parser's message and location. -/
structure ParseError : Type where
  msg : String
  lineno : Nat
  offset : Nat
deriving DecidableEq

/-- The metrics dictionary returned by `analyze_code`
(src/main.py lines 31-37).  Python ints are modelled by `Nat` (all four
counts are counts of list elements) and the Python float
`avg_func_length` by an exact rational. -/
structure MetricsRecord : Type where
  total_lines : Nat
  comment_lines : Nat
  todo_lines : Nat
  num_functions : Nat
  avg_func_length : ℚ
deriving DecidableEq

/-- `analyze_code` (src/main.py lines 6-37).  The file read of line 10 is
out of scope: `source` is the text.  The call `ast.parse(source)` of
line 19 is passed in as `parsed`: `Except.error e` when the parser raises a
`SyntaxError` `e`, `Except.ok tree` when it succeeds; the raise propagates,
so the function produces a metrics record only on a successful parse. -/
def analyze_code (source : String) (parsed : Except ParseError PyNode) :
    Except ParseError MetricsRecord :=
  let lines := pySplitlines source
  let total_lines := lines.length
  let comment_lines := lines.countP (fun line => isCommentLine line)
  let todo_lines := lines.countP (fun line => isTodoLine line)
  match parsed with
  | .error e => .error e
  | .ok tree =>
    let func_defs := (walkBFS [tree]).filter isFunctionDefNode
    let num_functions := func_defs.length
    let func_lengths := collectFuncLengths func_defs
    let avg_func_length : ℚ :=
      if func_lengths.isEmpty then 0
      else (func_lengths.sum : ℚ) / (func_lengths.length : ℚ)
    .ok { total_lines := total_lines, comment_lines := comment_lines,
          todo_lines := todo_lines, num_functions := num_functions,
          avg_func_length := avg_func_length }

/-- Message A1 (src/main.py line 59). -/
def msgA1 : String := "The stars whisper: your future holds… documentation. Consider leaving clues for your teammates."

/-- Message A2 (src/main.py line 61). -/
def msgA2 : String := "You comment when it matters. A balanced mind in a chaotic codebase."

/-- Message A3 (src/main.py line 63). -/
def msgA3 : String := "Your comments shine brighter than your code. Future you will be very grateful."

/-- Message B1 (src/main.py line 67). -/
def msgB1 : String := "The cosmos sees one giant script. Perhaps it is time to split logic into functions."

/-- Message B2 (src/main.py line 69). -/
def msgB2 : String := "Few but focused functions. You seek clarity over fragmentation."

/-- Message B3 (src/main.py line 71). -/
def msgB3 : String := "Many small functions: you embrace modularity. The gods of refactoring approve."

/-- Message C1 (src/main.py line 75). -/
def msgC1 : String := "Some functions carry heavy destiny. Consider granting them smaller responsibilities."

/-- Message C2 (src/main.py line 77). -/
def msgC2 : String := "Short functions, sharp focus. Your future PRs will be easy to review."

/-- Message C3 (src/main.py line 81). -/
def msgC3 : String := "Your functions have a healthy length. The balance of Zen and practicality is strong in you."

/-- Message D1 (src/main.py line 85). -/
def msgD1 : String := "No TODOs in sight. Either your work is complete, or you fear the truth."

/-- Message D2 (src/main.py line 87). -/
def msgD2 : String := "A few TODOs mark the path ahead. Future sprints already know their purpose."

/-- Message D3 (src/main.py line 89). -/
def msgD3 : String := "Many TODOs gather like clouds. This is a sign to schedule a refactoring ritual."

/-- Message E1 (src/main.py line 93). -/
def msgE1 : String := "A small file with big potential. Every line matters."

/-- Message E2 (src/main.py line 97). -/
def msgE2 : String := "Your file walks the middle path: not too small, not too sprawling."

/-- Message E3 (src/main.py line 95). -/
def msgE3 : String := "The constellations warn of a mighty file. Perhaps some pieces long to be modules."

/-- The fifteen verbatim message literals of src/main.py, in rule order. -/
def allMessages : List String :=
  [msgA1, msgA2, msgA3, msgB1, msgB2, msgB3, msgC1, msgC2, msgC3,
   msgD1, msgD2, msgD3, msgE1, msgE2, msgE3]

/-- The comment ratio of src/main.py lines 53-56:
`comments / lines if lines > 0 else 0.0`. -/
def commentRatio (m : MetricsRecord) : ℚ :=
  if m.total_lines > 0 then (m.comment_lines : ℚ) / (m.total_lines : ℚ) else 0

/-- The comment-ratio rule group (src/main.py lines 58-63); the thresholds
0.05 and 0.20 are the rationals 1/20 and 1/5. -/
def groupA (m : MetricsRecord) : List String :=
  if commentRatio m < 1 / 20 then [msgA1]
  else if commentRatio m < 1 / 5 then [msgA2]
  else [msgA3]

/-- The function-count rule group (src/main.py lines 66-71). -/
def groupB (m : MetricsRecord) : List String :=
  if m.num_functions = 0 then [msgB1]
  else if m.num_functions < 5 then [msgB2]
  else [msgB3]

/-- The average-function-length rule group (src/main.py lines 74-81): the
branch `avg_len == 0` appends nothing. -/
def groupC (m : MetricsRecord) : List String :=
  if m.avg_func_length > 50 then [msgC1]
  else if 0 < m.avg_func_length ∧ m.avg_func_length ≤ 15 then [msgC2]
  else if m.avg_func_length = 0 then []
  else [msgC3]

/-- The TODO-count rule group (src/main.py lines 84-89). -/
def groupD (m : MetricsRecord) : List String :=
  if m.todo_lines = 0 then [msgD1]
  else if m.todo_lines < 5 then [msgD2]
  else [msgD3]

/-- The total-line-count rule group (src/main.py lines 92-97). -/
def groupE (m : MetricsRecord) : List String :=
  if m.total_lines < 50 then [msgE1]
  else if m.total_lines > 500 then [msgE3]
  else [msgE2]

/-- The `messages` list built by `generate_horoscope`
(src/main.py lines 50-97): each rule group appends its selected messages in
the fixed group order. -/
def generateMessages (m : MetricsRecord) : List String :=
  groupA m ++ groupB m ++ groupC m ++ groupD m ++ groupE m

/-- The bullet prefix applied to each message. -/
def bulletPrefix : String := "• "

/-- The newline separator joining the bulleted lines. -/
def lineSep : String := String.mk [lineFeed]

/-- `generate_horoscope` (src/main.py lines 40-100): select the messages
and return them joined into one string, each line prefixed with a bullet
(line 99: `"\n".join(f"• \x7bmsg\x7d" for msg in messages)`). -/
def generate_horoscope (m : MetricsRecord) : String :=
  String.intercalate lineSep ((generateMessages m).map (fun msg => bulletPrefix ++ msg))

/-! Helper lemmas about the traversal and the counts. -/

theorem countFD_eq (n : PyNode) :
    countFD n = (if isFunctionDefNode n then 1 else 0) + countFDList (childrenOf n) := by
  cases n <;> simp [countFD, isFunctionDefNode, childrenOf]

theorem countFDList_append (a b : List PyNode) :
    countFDList (a ++ b) = countFDList a + countFDList b := by
  induction a with
  | nil => simp [countFDList]
  | cons n ns ih => simp [countFDList, ih, Nat.add_assoc]

theorem walkBFS_countP (l : List PyNode) :
    (walkBFS l).countP isFunctionDefNode = countFDList l := by
  induction l using walkBFS.induct with
  | case1 => simp [walkBFS, countFDList]
  | case2 n ns ih =>
    rw [walkBFS, List.countP_cons, ih, countFDList_append, countFDList,
      countFD_eq n]
    by_cases h : isFunctionDefNode n <;> simp [h] <;> omega

/-! Helper lemmas about the line splitter. -/

theorem lineFeed_ne_carriageReturn : lineFeed ≠ carriageReturn := by decide

theorem isLineBoundary_lineFeed : isLineBoundary lineFeed = true := by decide

theorem isLineBoundary_carriageReturn : isLineBoundary carriageReturn = true := by decide

theorem splitLinesAux_cons_lf (cs acc : List Char) :
    splitLinesAux (lineFeed :: cs) acc =
      String.mk acc.reverse :: splitLinesAux cs [] := by
  cases cs with
  | nil =>
    simp [splitLinesAux, lineFeed_ne_carriageReturn, isLineBoundary_lineFeed]
  | cons d rest =>
    simp [splitLinesAux, lineFeed_ne_carriageReturn, isLineBoundary_lineFeed]

theorem splitLinesAux_cons_nonbound (c : Char) (cs acc : List Char)
    (h : isLineBoundary c = false) :
    splitLinesAux (c :: cs) acc = splitLinesAux cs (c :: acc) := by
  have hcr : c ≠ carriageReturn := by
    intro he
    rw [he, isLineBoundary_carriageReturn] at h
    exact Bool.noConfusion h
  cases cs with
  | nil => simp [splitLinesAux, hcr, h]
  | cons d rest => simp [splitLinesAux, hcr, h]

theorem splitLinesAux_append_nl (cs acc : List Char) :
    ∀ c : Char, cs.getLast? = some c → isLineBoundary c = false →
      splitLinesAux (cs ++ [lineFeed]) acc = splitLinesAux cs acc := by
  induction cs, acc using splitLinesAux.induct with
  | case1 acc _ => intro c hc _; simp at hc
  | case2 acc _ => intro c hc _; simp at hc
  | case3 acc =>
    intro c hc hb
    simp at hc
    rw [← hc, isLineBoundary_carriageReturn] at hb
    exact Bool.noConfusion hb
  | case4 c0 acc hcr hb =>
    intro c hc hb2
    simp at hc
    rw [← hc, hb] at hb2
    exact Bool.noConfusion hb2
  | case5 c0 acc hcr hb =>
    intro c hc _
    have hb' : isLineBoundary c0 = false := by simpa using hb
    rw [List.cons_append, List.nil_append,
      splitLinesAux_cons_nonbound c0 [lineFeed] acc hb',
      splitLinesAux_cons_lf]
    simp [splitLinesAux, hcr, hb']
  | case6 rest acc ih =>
    intro c hc hb
    cases rest with
    | nil =>
      simp at hc
      rw [← hc, isLineBoundary_lineFeed] at hb
      exact Bool.noConfusion hb
    | cons e rest2 =>
      have hlast : (e :: rest2).getLast? = some c := by
        simpa using hc
      have ih2 := ih c hlast hb
      simp only [List.cons_append] at ih2 ⊢
      simp only [splitLinesAux]
      simp [ih2]
  | case7 d rest acc hd ih =>
    intro c hc hb
    have hlast : (d :: rest).getLast? = some c := by
      simpa using hc
    have ih2 := ih c hlast hb
    simp only [List.cons_append] at ih2 ⊢
    simp only [splitLinesAux]
    simp [hd, ih2]
  | case8 c0 d rest acc hcr hbdy ih =>
    intro c hc hb
    have hlast : (d :: rest).getLast? = some c := by
      simpa using hc
    have ih2 := ih c hlast hb
    simp only [List.cons_append] at ih2 ⊢
    simp only [splitLinesAux]
    simp [hcr, hbdy, ih2]
  | case9 c0 d rest acc hcr hbdy ih =>
    intro c hc hb
    have hlast : (d :: rest).getLast? = some c := by
      simpa using hc
    have hb0 : isLineBoundary c0 = false := by simpa using hbdy
    have ih2 := ih c hlast hb
    simp only [List.cons_append] at ih2 ⊢
    simp only [splitLinesAux]
    simp [hcr, hb0, ih2]

theorem splitLinesAux_line (lc : List Char) :
    ∀ (rest acc : List Char), (∀ ch ∈ lc, isLineBoundary ch = false) →
      splitLinesAux (lc ++ lineFeed :: rest) acc =
        String.mk (acc.reverse ++ lc) :: splitLinesAux rest [] := by
  induction lc with
  | nil =>
    intro rest acc _
    simp [splitLinesAux_cons_lf]
  | cons x lc ih =>
    intro rest acc h
    have hx : isLineBoundary x = false := h x (List.mem_cons_self x lc)
    have hrest : ∀ ch ∈ lc, isLineBoundary ch = false := fun ch hch =>
      h ch (List.mem_cons_of_mem x hch)
    rw [List.cons_append, splitLinesAux_cons_nonbound x _ acc hx,
      ih rest (x :: acc) hrest]
    simp

/-- A source text made of lines, each terminated by a single LF. -/
def nlJoin : List String → String
  | [] => String.mk []
  | l :: ls => l ++ String.mk [lineFeed] ++ nlJoin ls

theorem pySplitlines_nlJoin (ls : List String)
    (h : ∀ l ∈ ls, ∀ ch ∈ l.data, isLineBoundary ch = false) :
    pySplitlines (nlJoin ls) = ls := by
  induction ls with
  | nil => simp [nlJoin, pySplitlines, splitLinesAux]
  | cons l ls ih =>
    have hl : ∀ ch ∈ l.data, isLineBoundary ch = false :=
      h l (List.mem_cons_self l ls)
    have hls : ∀ l2 ∈ ls, ∀ ch ∈ l2.data, isLineBoundary ch = false :=
      fun l2 hl2 => h l2 (List.mem_cons_of_mem l hl2)
    have hdata : (nlJoin (l :: ls)).data = l.data ++ lineFeed :: (nlJoin ls).data := by
      simp [nlJoin, String.data_append]
    rw [pySplitlines, hdata, splitLinesAux_line l.data (nlJoin ls).data [] hl]
    rw [← pySplitlines, ih hls]
    simp

/-! Helper lemmas about function spans. -/

theorem length_le_sum_of_one_le (xs : List Int) (h : ∀ x ∈ xs, 1 ≤ x) :
    (xs.length : Int) ≤ xs.sum := by
  induction xs with
  | nil => simp
  | cons x xs ih =>
    have hx : 1 ≤ x := h x (List.mem_cons_self x xs)
    have hxs := ih (fun y hy => h y (List.mem_cons_of_mem x hy))
    simp only [List.length_cons, List.sum_cons]
    push_cast
    omega

theorem span_one_le_of_wf (t : PyNode) (hwf : wfPositions t = true) :
    ∀ x ∈ collectFuncLengths ((walkBFS [t]).filter isFunctionDefNode), 1 ≤ x := by
  intro x hx
  rw [collectFuncLengths, List.mem_filterMap] at hx
  obtain ⟨n, hn, hspan⟩ := hx
  have hnwalk : n ∈ walkBFS [t] := (List.mem_filter.mp hn).1
  have hnwf : nodeWfB n = true := by
    rw [wfPositions, List.all_eq_true] at hwf
    exact hwf n hnwalk
  cases n with
  | functionDef name pos cs =>
    cases pos with
    | none => simp [spanOf] at hspan
    | some p =>
      simp only [spanOf, Option.some.injEq] at hspan
      simp only [nodeWfB, decide_eq_true_eq] at hnwf
      omega
  | module cs => simp [spanOf] at hspan
  | asyncFunctionDef name pos cs => simp [spanOf] at hspan
  | lambdaExpr cs => simp [spanOf] at hspan
  | other cs => simp [spanOf] at hspan

/-! Helper lemmas about the rule groups. -/

theorem groupA_cases (m : MetricsRecord) :
    groupA m = [msgA1] ∨ groupA m = [msgA2] ∨ groupA m = [msgA3] := by
  rw [groupA]
  split_ifs <;> simp

theorem groupB_cases (m : MetricsRecord) :
    groupB m = [msgB1] ∨ groupB m = [msgB2] ∨ groupB m = [msgB3] := by
  rw [groupB]
  split_ifs <;> simp

theorem groupD_cases (m : MetricsRecord) :
    groupD m = [msgD1] ∨ groupD m = [msgD2] ∨ groupD m = [msgD3] := by
  rw [groupD]
  split_ifs <;> simp

theorem groupE_cases (m : MetricsRecord) :
    groupE m = [msgE1] ∨ groupE m = [msgE2] ∨ groupE m = [msgE3] := by
  rw [groupE]
  split_ifs <;> simp

/-- Which strings the average-function-length group can select. -/
def isCMessage (s : String) : Bool := s = msgC1 || s = msgC2 || s = msgC3

theorem groupC_of_zero (m : MetricsRecord) (h : m.avg_func_length = 0) :
    groupC m = [] := by
  rw [groupC]
  have h1 : ¬ m.avg_func_length > 50 := by rw [h]; norm_num
  have h2 : ¬ (0 < m.avg_func_length ∧ m.avg_func_length ≤ 15) := by
    rw [h]; norm_num
  simp [h1, h2, h]

theorem groupC_of_ne_zero (m : MetricsRecord) (h : m.avg_func_length ≠ 0) :
    groupC m = [msgC1] ∨ groupC m = [msgC2] ∨ groupC m = [msgC3] := by
  rw [groupC]
  by_cases h1 : m.avg_func_length > 50
  · simp [h1]
  · by_cases h2 : 0 < m.avg_func_length ∧ m.avg_func_length ≤ 15
    · simp [h1, h2]
    · simp [h1, h2, h]

theorem countP_isCMessage_groupA (m : MetricsRecord) :
    (groupA m).countP isCMessage = 0 := by
  rcases groupA_cases m with h | h | h <;> rw [h] <;> decide

theorem countP_isCMessage_groupB (m : MetricsRecord) :
    (groupB m).countP isCMessage = 0 := by
  rcases groupB_cases m with h | h | h <;> rw [h] <;> decide

theorem countP_isCMessage_groupD (m : MetricsRecord) :
    (groupD m).countP isCMessage = 0 := by
  rcases groupD_cases m with h | h | h <;> rw [h] <;> decide

theorem countP_isCMessage_groupE (m : MetricsRecord) :
    (groupE m).countP isCMessage = 0 := by
  rcases groupE_cases m with h | h | h <;> rw [h] <;> decide

theorem length_groupA (m : MetricsRecord) : (groupA m).length = 1 := by
  rcases groupA_cases m with h | h | h <;> rw [h] <;> rfl

theorem length_groupB (m : MetricsRecord) : (groupB m).length = 1 := by
  rcases groupB_cases m with h | h | h <;> rw [h] <;> rfl

theorem length_groupD (m : MetricsRecord) : (groupD m).length = 1 := by
  rcases groupD_cases m with h | h | h <;> rw [h] <;> rfl

theorem length_groupE (m : MetricsRecord) : (groupE m).length = 1 := by
  rcases groupE_cases m with h | h | h <;> rw [h] <;> rfl

theorem isCMessage_msgC1 : isCMessage msgC1 = true := by decide

theorem isCMessage_msgC2 : isCMessage msgC2 = true := by decide

theorem isCMessage_msgC3 : isCMessage msgC3 = true := by decide

/-- The empty source text. -/
def emptySource : String := ""

/-- On a successful parse, `analyze_code` returns exactly this record. -/
theorem analyze_code_ok_eq (source : String) (t : PyNode) :
    analyze_code source (Except.ok t) = Except.ok
      (MetricsRecord.mk (pySplitlines source).length
        ((pySplitlines source).countP (fun line => isCommentLine line))
        ((pySplitlines source).countP (fun line => isTodoLine line))
        ((walkBFS [t]).filter isFunctionDefNode).length
        (if (collectFuncLengths ((walkBFS [t]).filter isFunctionDefNode)).isEmpty then 0
         else ((collectFuncLengths ((walkBFS [t]).filter isFunctionDefNode)).sum : ℚ) /
           ((collectFuncLengths ((walkBFS [t]).filter isFunctionDefNode)).length : ℚ))) := rfl

/-! The claims. -/

/-- C1, counterexample: the claim asserts that one of the three
average-function-length messages is emitted whenever `num_functions > 0` or
`avg_func_length != 0`, and that exactly 4 entries are returned only when
`num_functions == 0` and `avg_func_length == 0`.  The record with
`num_functions = 3` and `avg_func_length = 0` (all fields non-negative)
refutes both parts: the code keys the group on `avg_func_length` alone, so
no C message is emitted and only 4 entries are returned. -/
theorem c1_counterexample :
    (0 : ℚ) ≤ (MetricsRecord.mk 0 0 0 3 0).avg_func_length ∧
    0 < (MetricsRecord.mk 0 0 0 3 0).num_functions ∧
    (generateMessages (MetricsRecord.mk 0 0 0 3 0)).length = 4 ∧
    (generateMessages (MetricsRecord.mk 0 0 0 3 0)).countP isCMessage = 0 := by
  have hg : generateMessages (MetricsRecord.mk 0 0 0 3 0) =
      [msgA1, msgB2, msgD1, msgE1] := by
    norm_num [generateMessages, groupA, groupB, groupC, groupD, groupE,
      commentRatio]
  refine ⟨le_refl 0, by decide, ?_, ?_⟩
  · rw [hg]
    rfl
  · rw [hg]
    decide

/-- C1 (amended): for every MetricsRecord with non-negative fields,
`generateMessages` returns 4 entries and no C message when
`avg_func_length = 0`, and 5 entries of which exactly one is a C message
when `avg_func_length ≠ 0`; the function-count field plays no role in the
C group. -/
theorem c1_generate_message_count (m : MetricsRecord)
    (_h : 0 ≤ m.avg_func_length) :
    (generateMessages m).length = (if m.avg_func_length = 0 then 4 else 5) ∧
    (generateMessages m).countP isCMessage =
      (if m.avg_func_length = 0 then 0 else 1) := by
  by_cases hz : m.avg_func_length = 0
  · rw [generateMessages, groupC_of_zero m hz, if_pos hz, if_pos hz]
    constructor
    · simp [List.length_append, length_groupA, length_groupB, length_groupD,
        length_groupE]
    · simp [List.countP_append, countP_isCMessage_groupA,
        countP_isCMessage_groupB, countP_isCMessage_groupD,
        countP_isCMessage_groupE]
  · have hone : (groupC m).countP isCMessage = 1 ∧ (groupC m).length = 1 := by
      rcases groupC_of_ne_zero m hz with hC | hC | hC <;>
        rw [hC] <;>
        exact ⟨by simp [List.countP_cons, isCMessage_msgC1, isCMessage_msgC2,
          isCMessage_msgC3], rfl⟩
    rw [generateMessages, if_neg hz, if_neg hz]
    constructor
    · simp [List.length_append, length_groupA, length_groupB, length_groupD,
        length_groupE, hone.2]
    · simp [List.countP_append, countP_isCMessage_groupA,
        countP_isCMessage_groupB, countP_isCMessage_groupD,
        countP_isCMessage_groupE, hone.1]

/-- C1, witness: a record with `avg_func_length = 20` gets 5 messages,
exactly one from the C group. -/
theorem c1_generate_message_count_witness :
    (0 : ℚ) ≤ (MetricsRecord.mk 100 10 2 4 20).avg_func_length ∧
    (generateMessages (MetricsRecord.mk 100 10 2 4 20)).length = 5 ∧
    (generateMessages (MetricsRecord.mk 100 10 2 4 20)).countP isCMessage = 1 := by
  have h0 : (0 : ℚ) ≤ (MetricsRecord.mk 100 10 2 4 20).avg_func_length := by
    show (0 : ℚ) ≤ 20
    norm_num
  have h := c1_generate_message_count (MetricsRecord.mk 100 10 2 4 20) h0
  have hne : ¬ (MetricsRecord.mk 100 10 2 4 20).avg_func_length = 0 := by
    show ¬ (20 : ℚ) = 0
    norm_num
  rw [if_neg hne, if_neg hne] at h
  exact ⟨h0, h.1, h.2⟩

/-- C2: for every syntactically valid source text, `num_functions` equals
the number of named function-definition nodes anywhere in the syntax tree
(`countFD`, which counts nodes at any nesting depth and counts neither
async function definitions nor lambdas). -/
theorem c2_num_functions_counts_named_defs :
    (∀ (source : String) (t : PyNode),
        Except.map MetricsRecord.num_functions (analyze_code source (Except.ok t)) =
          Except.ok (countFD t)) ∧
    (∀ (name : String) (pos : Option (Nat × Nat)) (cs : List PyNode),
        countFD (PyNode.asyncFunctionDef name pos cs) = countFDList cs) ∧
    (∀ cs : List PyNode, countFD (PyNode.lambdaExpr cs) = countFDList cs) := by
  refine ⟨?_, fun name pos cs => rfl, fun cs => rfl⟩
  intro source t
  rw [analyze_code_ok_eq]
  simp only [Except.map]
  rw [← List.countP_eq_length_filter, walkBFS_countP]
  simp [countFDList]

/-- C3: `analyze_code` propagates exactly the parser's error on
syntactically invalid input, and on valid input returns a fully populated
record; no other failure exists and no partial record is produced. -/
theorem c3_parse_error_only_failure (source : String) :
    (∀ e : ParseError, analyze_code source (Except.error e) = Except.error e) ∧
    (∀ t : PyNode, ∃ r : MetricsRecord,
        analyze_code source (Except.ok t) = Except.ok r) := by
  constructor
  · intro e
    rfl
  · intro t
    exact ⟨_, analyze_code_ok_eq source t⟩

/-- C4: on every successful parse of a well-formed tree, the returned
record satisfies `comment_lines ≤ total_lines`, `todo_lines ≤ total_lines`
and `avg_func_length ≥ 0` (the four counting fields are naturals, hence
non-negative by type). -/
theorem c4_record_invariants (source : String) (t : PyNode) (r : MetricsRecord)
    (hwf : wfPositions t = true)
    (heq : analyze_code source (Except.ok t) = Except.ok r) :
    r.comment_lines ≤ r.total_lines ∧ r.todo_lines ≤ r.total_lines ∧
    0 ≤ r.avg_func_length := by
  rw [analyze_code_ok_eq, Except.ok.injEq] at heq
  subst heq
  refine ⟨List.countP_le_length _, List.countP_le_length _, ?_⟩
  simp only
  by_cases hE : (collectFuncLengths ((walkBFS [t]).filter isFunctionDefNode)).isEmpty
  · rw [if_pos hE]
  · rw [if_neg hE]
    have h1 := span_one_le_of_wf t hwf
    have h2 := length_le_sum_of_one_le _ h1
    apply div_nonneg
    · have h3 : (0 : Int) ≤ (collectFuncLengths ((walkBFS [t]).filter isFunctionDefNode)).sum :=
        le_trans (Int.natCast_nonneg _) h2
      exact_mod_cast h3
    · positivity

/-- C4, witness: the empty module. -/
theorem c4_record_invariants_witness :
    wfPositions (PyNode.module []) = true ∧
    analyze_code emptySource (Except.ok (PyNode.module [])) =
      Except.ok (MetricsRecord.mk 0 0 0 0 0) ∧
    ((MetricsRecord.mk 0 0 0 0 0).comment_lines ≤
        (MetricsRecord.mk 0 0 0 0 0).total_lines ∧
      (MetricsRecord.mk 0 0 0 0 0).todo_lines ≤
        (MetricsRecord.mk 0 0 0 0 0).total_lines ∧
      (0 : ℚ) ≤ (MetricsRecord.mk 0 0 0 0 0).avg_func_length) := by
  have hwf : wfPositions (PyNode.module []) = true := by
    rw [wfPositions]
    rw [walkBFS]
    simp [walkBFS, childrenOf, nodeWfB]
  have hsplit : pySplitlines emptySource = [] := rfl
  have hwalk : walkBFS [PyNode.module []] = [PyNode.module []] := by
    rw [walkBFS]
    simp [walkBFS, childrenOf]
  have heq : analyze_code emptySource (Except.ok (PyNode.module [])) =
      Except.ok (MetricsRecord.mk 0 0 0 0 0) := by
    rw [analyze_code_ok_eq, hsplit, hwalk]
    simp [collectFuncLengths, isFunctionDefNode, spanOf]
  exact ⟨hwf, heq,
    c4_record_invariants emptySource (PyNode.module [])
      (MetricsRecord.mk 0 0 0 0 0) hwf heq⟩

/-- C5: on every successful parse of a well-formed tree,
`avg_func_length = 0` exactly when no per-function span was collected, and
`num_functions = 0` implies `avg_func_length = 0`. -/
theorem c5_avg_zero_iff_no_spans (source : String) (t : PyNode)
    (r : MetricsRecord) (hwf : wfPositions t = true)
    (heq : analyze_code source (Except.ok t) = Except.ok r) :
    (r.avg_func_length = 0 ↔
      collectFuncLengths ((walkBFS [t]).filter isFunctionDefNode) = []) ∧
    (r.num_functions = 0 → r.avg_func_length = 0) := by
  rw [analyze_code_ok_eq, Except.ok.injEq] at heq
  subst heq
  simp only
  have hempty :
      ∀ hE : (collectFuncLengths ((walkBFS [t]).filter isFunctionDefNode)).isEmpty = false,
      ((collectFuncLengths ((walkBFS [t]).filter isFunctionDefNode)).sum : ℚ) /
        ((collectFuncLengths ((walkBFS [t]).filter isFunctionDefNode)).length : ℚ) ≠ 0 := by
    intro hE
    have hne : collectFuncLengths ((walkBFS [t]).filter isFunctionDefNode) ≠ [] := by
      simpa [List.isEmpty_iff] using hE
    have h1 := span_one_le_of_wf t hwf
    have h2 := length_le_sum_of_one_le _ h1
    have hlen : 0 < (collectFuncLengths ((walkBFS [t]).filter isFunctionDefNode)).length :=
      List.length_pos.mpr hne
    have hsum : (0 : Int) < (collectFuncLengths ((walkBFS [t]).filter isFunctionDefNode)).sum := by
      have : (0 : Int) < ((collectFuncLengths ((walkBFS [t]).filter isFunctionDefNode)).length : Int) := by
        exact_mod_cast hlen
      omega
    have hq : (0 : ℚ) <
        ((collectFuncLengths ((walkBFS [t]).filter isFunctionDefNode)).sum : ℚ) /
          ((collectFuncLengths ((walkBFS [t]).filter isFunctionDefNode)).length : ℚ) := by
      apply div_pos
      · exact_mod_cast hsum
      · exact_mod_cast hlen
    exact ne_of_gt hq
  constructor
  · constructor
    · intro h0
      by_cases hE : (collectFuncLengths ((walkBFS [t]).filter isFunctionDefNode)).isEmpty
      · exact List.isEmpty_iff.mp hE
      · rw [if_neg hE] at h0
        exact absurd h0 (hempty (Bool.eq_false_iff.mpr hE))
    · intro h0
      have hE : (collectFuncLengths ((walkBFS [t]).filter isFunctionDefNode)).isEmpty := by
        simp [h0]
      rw [if_pos hE]
  · intro hnum
    have hnil : (walkBFS [t]).filter isFunctionDefNode = [] :=
      List.length_eq_zero.mp hnum
    have hE : (collectFuncLengths ((walkBFS [t]).filter isFunctionDefNode)).isEmpty := by
      simp [hnil, collectFuncLengths]
    rw [if_pos hE]

/-- C5, witness: a module containing one function definition spanning
lines 1-3. -/
theorem c5_avg_zero_iff_no_spans_witness :
    wfPositions (PyNode.module [PyNode.functionDef emptySource (some (1, 3)) []]) = true ∧
    analyze_code emptySource
        (Except.ok (PyNode.module [PyNode.functionDef emptySource (some (1, 3)) []])) =
      Except.ok (MetricsRecord.mk 0 0 0 1 3) ∧
    ((MetricsRecord.mk 0 0 0 1 3).avg_func_length = 0 ↔
      collectFuncLengths
        ((walkBFS [PyNode.module [PyNode.functionDef emptySource (some (1, 3)) []]]).filter
          isFunctionDefNode) = []) ∧
    ((MetricsRecord.mk 0 0 0 1 3).num_functions = 0 →
      (MetricsRecord.mk 0 0 0 1 3).avg_func_length = 0) := by
  have hwalk : walkBFS [PyNode.module [PyNode.functionDef emptySource (some (1, 3)) []]] =
      [PyNode.module [PyNode.functionDef emptySource (some (1, 3)) []],
       PyNode.functionDef emptySource (some (1, 3)) []] := by
    rw [walkBFS]
    simp only [childrenOf, List.nil_append]
    rw [walkBFS]
    simp [walkBFS, childrenOf]
  have hwf : wfPositions (PyNode.module [PyNode.functionDef emptySource (some (1, 3)) []]) = true := by
    rw [wfPositions, hwalk]
    simp [nodeWfB]
  have heq : analyze_code emptySource
      (Except.ok (PyNode.module [PyNode.functionDef emptySource (some (1, 3)) []])) =
      Except.ok (MetricsRecord.mk 0 0 0 1 3) := by
    rw [analyze_code_ok_eq, hwalk]
    have hsplit : pySplitlines emptySource = [] := rfl
    rw [hsplit]
    simp [collectFuncLengths, isFunctionDefNode, spanOf, List.filter]
  have h := c5_avg_zero_iff_no_spans emptySource
    (PyNode.module [PyNode.functionDef emptySource (some (1, 3)) []])
    (MetricsRecord.mk 0 0 0 1 3) hwf heq
  exact ⟨hwf, heq, h.1, h.2⟩

theorem generateMessages_zero_record :
    generateMessages (MetricsRecord.mk 0 0 0 0 0) =
      [msgA1, msgB1, msgD1, msgE1] := by
  norm_num [generateMessages, groupA, groupB, groupC, groupD, groupE,
    commentRatio]

/-- C6: the empty source text parses to an empty module, analyzes to the
all-zero record (total_lines = 0 under the splitter's policy), and the
generator produces exactly the four messages A1, B1, D1, E1 in that
order. -/
theorem c6_empty_source :
    analyze_code emptySource (Except.ok (PyNode.module [])) =
      Except.ok (MetricsRecord.mk 0 0 0 0 0) ∧
    generateMessages (MetricsRecord.mk 0 0 0 0 0) =
      [msgA1, msgB1, msgD1, msgE1] := by
  constructor
  · have hsplit : pySplitlines emptySource = [] := rfl
    have hwalk : walkBFS [PyNode.module []] = [PyNode.module []] := by
      rw [walkBFS]
      simp [walkBFS, childrenOf]
    rw [analyze_code_ok_eq, hsplit, hwalk]
    simp [collectFuncLengths, isFunctionDefNode, spanOf]
  · exact generateMessages_zero_record

/-- C7: whenever the comment ratio is exactly 0.05 (and there is at least
one line), the comment-ratio group emits A2, not A1, because the A1 bound
is strict. -/
theorem c7_comment_ratio_boundary (m : MetricsRecord)
    (h0 : 0 < m.total_lines)
    (hr : (m.comment_lines : ℚ) / (m.total_lines : ℚ) = 1 / 20) :
    (generateMessages m).head? = some msgA2 := by
  have hcr : commentRatio m = 1 / 20 := by
    rw [commentRatio, if_pos h0]
    exact hr
  have hA : groupA m = [msgA2] := by
    rw [groupA, hcr]
    norm_num
  rw [generateMessages, hA]
  rfl

/-- C7, witness: 2 comment lines out of 40. -/
theorem c7_comment_ratio_boundary_witness :
    0 < (MetricsRecord.mk 40 2 0 3 10).total_lines ∧
    ((MetricsRecord.mk 40 2 0 3 10).comment_lines : ℚ) /
        ((MetricsRecord.mk 40 2 0 3 10).total_lines : ℚ) = 1 / 20 ∧
    (generateMessages (MetricsRecord.mk 40 2 0 3 10)).head? = some msgA2 := by
  have h0 : 0 < (MetricsRecord.mk 40 2 0 3 10).total_lines := by decide
  have hr : ((MetricsRecord.mk 40 2 0 3 10).comment_lines : ℚ) /
      ((MetricsRecord.mk 40 2 0 3 10).total_lines : ℚ) = 1 / 20 := by
    show ((2 : ℕ) : ℚ) / ((40 : ℕ) : ℚ) = 1 / 20
    norm_num
  exact ⟨h0, hr, c7_comment_ratio_boundary _ h0 hr⟩

/-- C8: a record with exactly 500 total lines gets E2 from the
total-line-count group (the last message), not E3, because the E3 bound is
strictly greater than 500. -/
theorem c8_total_lines_boundary (m : MetricsRecord)
    (h : m.total_lines = 500) :
    (generateMessages m).getLast? = some msgE2 := by
  have hE : groupE m = [msgE2] := by
    rw [groupE, h]
    norm_num
  rw [generateMessages, hE]
  simp [List.getLast?_append]

/-- C8, witness: exactly 500 lines. -/
theorem c8_total_lines_boundary_witness :
    (MetricsRecord.mk 500 0 0 0 0).total_lines = 500 ∧
    (generateMessages (MetricsRecord.mk 500 0 0 0 0)).getLast? =
      some msgE2 :=
  ⟨rfl, c8_total_lines_boundary _ rfl⟩

set_option maxRecDepth 8000

/-- C9, counterexample: the claim asserts that the generator returns the
raw message sequence with no bullet prefix, bulleting being left to the
caller.  In the code `generate_horoscope` itself joins the messages into a
single string with a bullet before each: at the all-zero record its output
differs from the raw newline-join of the selected messages and instead
equals the bulleted join. -/
theorem c9_counterexample :
    generate_horoscope (MetricsRecord.mk 0 0 0 0 0) ≠
      String.intercalate lineSep
        (generateMessages (MetricsRecord.mk 0 0 0 0 0)) ∧
    generate_horoscope (MetricsRecord.mk 0 0 0 0 0) =
      bulletPrefix ++ msgA1 ++ lineSep ++ bulletPrefix ++ msgB1 ++ lineSep ++
        bulletPrefix ++ msgD1 ++ lineSep ++ bulletPrefix ++ msgE1 := by
  have hh : generate_horoscope (MetricsRecord.mk 0 0 0 0 0) =
      String.intercalate lineSep
        ((generateMessages (MetricsRecord.mk 0 0 0 0 0)).map
          (fun msg => bulletPrefix ++ msg)) := rfl
  rw [hh, generateMessages_zero_record]
  constructor
  · decide
  · decide

/-- C9 (amended): `generate_horoscope` returns one string, the selected
messages in rule order each prefixed with a bullet and joined by newlines
(the bulleting happens inside the generator, not in the caller), and every
selected message is one of the fifteen verbatim literals. -/
theorem c9_generate_bulleted_output (m : MetricsRecord) :
    generate_horoscope m =
      String.intercalate lineSep
        ((generateMessages m).map (fun msg => bulletPrefix ++ msg)) ∧
    (generateMessages m).all (fun msg => allMessages.contains msg) = true := by
  refine ⟨rfl, ?_⟩
  have hA : (groupA m).all (fun msg => allMessages.contains msg) = true := by
    rcases groupA_cases m with h | h | h <;> rw [h] <;> decide
  have hB : (groupB m).all (fun msg => allMessages.contains msg) = true := by
    rcases groupB_cases m with h | h | h <;> rw [h] <;> decide
  have hC : (groupC m).all (fun msg => allMessages.contains msg) = true := by
    by_cases hz : m.avg_func_length = 0
    · rw [groupC_of_zero m hz]
      decide
    · rcases groupC_of_ne_zero m hz with h | h | h <;> rw [h] <;> decide
  have hD : (groupD m).all (fun msg => allMessages.contains msg) = true := by
    rcases groupD_cases m with h | h | h <;> rw [h] <;> decide
  have hE : (groupE m).all (fun msg => allMessages.contains msg) = true := by
    rcases groupE_cases m with h | h | h <;> rw [h] <;> decide
  rw [generateMessages]
  simp only [List.all_eq_true] at hA hB hC hD hE
  simp only [List.all_append, Bool.and_eq_true, List.all_eq_true]
  exact ⟨⟨⟨⟨hA, hB⟩, hC⟩, hD⟩, hE⟩

/-- A two-character source text ending in a vertical tab. -/
def vtSource : String := String.mk [Char.ofNat 97, Char.ofNat 11]

/-- C10, counterexample: the claim quantifies over every non-empty source
text not ending with a newline character.  `vtSource` (the letter a
followed by a vertical tab) does not end with a newline, yet appending one
raises `total_lines` from 1 to 2, because the vertical tab is itself a
line boundary for the splitter, so the appended newline terminates a new
empty line. -/
theorem c10_counterexample :
    vtSource.data ≠ [] ∧
    vtSource.data.getLast? ≠ some lineFeed ∧
    Except.map MetricsRecord.total_lines
        (analyze_code vtSource (Except.ok (PyNode.module []))) =
      Except.ok 1 ∧
    Except.map MetricsRecord.total_lines
        (analyze_code (vtSource ++ lineSep) (Except.ok (PyNode.module []))) =
      Except.ok 2 := by
  refine ⟨by decide, by decide, ?_, ?_⟩
  · rw [analyze_code_ok_eq]
    rfl
  · rw [analyze_code_ok_eq]
    rfl

/-- C10 (amended): appending a trailing newline to a non-empty text whose
last character is not one of the splitter's line-boundary characters does
not change `total_lines`; and a text of N lines, each free of boundary
characters and terminated by a single newline, has `total_lines` = N. -/
theorem c10_trailing_newline_policy :
    (∀ (s : String) (t : PyNode) (c : Char),
        s.data.getLast? = some c → isLineBoundary c = false →
        Except.map MetricsRecord.total_lines
            (analyze_code (s ++ lineSep) (Except.ok t)) =
          Except.map MetricsRecord.total_lines
            (analyze_code s (Except.ok t))) ∧
    (∀ (ls : List String) (t : PyNode),
        (∀ l ∈ ls, ∀ ch ∈ l.data, isLineBoundary ch = false) →
        Except.map MetricsRecord.total_lines
            (analyze_code (nlJoin ls) (Except.ok t)) =
          Except.ok ls.length) := by
  constructor
  · intro s t c hc hb
    have hsplit : pySplitlines (s ++ lineSep) = pySplitlines s := by
      rw [pySplitlines, pySplitlines, String.data_append]
      have hd : lineSep.data = [lineFeed] := rfl
      rw [hd]
      exact splitLinesAux_append_nl s.data [] c hc hb
    rw [analyze_code_ok_eq, analyze_code_ok_eq]
    simp [hsplit]
  · intro ls t h
    rw [analyze_code_ok_eq]
    simp [pySplitlines_nlJoin ls h, Except.map]

/-- A two-character source text with no boundary characters. -/
def abSource : String := String.mk [Char.ofNat 97, Char.ofNat 98]

/-- A one-character line used in the C10 witness. -/
def lineA : String := String.mk [Char.ofNat 97]

/-- Another one-character line used in the C10 witness. -/
def lineB : String := String.mk [Char.ofNat 98]

/-- C10, witness: for the text ab, appending a newline leaves
`total_lines` at 1; two newline-terminated lines give `total_lines` 2. -/
theorem c10_trailing_newline_policy_witness :
    abSource.data.getLast? = some (Char.ofNat 98) ∧
    isLineBoundary (Char.ofNat 98) = false ∧
    (∀ l ∈ [lineA, lineB], ∀ ch ∈ l.data, isLineBoundary ch = false) ∧
    Except.map MetricsRecord.total_lines
        (analyze_code (abSource ++ lineSep) (Except.ok (PyNode.module []))) =
      Except.map MetricsRecord.total_lines
        (analyze_code abSource (Except.ok (PyNode.module []))) ∧
    Except.map MetricsRecord.total_lines
        (analyze_code (nlJoin [lineA, lineB]) (Except.ok (PyNode.module []))) =
      Except.ok 2 := by
  refine ⟨by decide, by decide, by decide, ?_, ?_⟩
  · exact c10_trailing_newline_policy.1 abSource (PyNode.module [])
      (Char.ofNat 98) (by decide) (by decide)
  · have h := c10_trailing_newline_policy.2 [lineA, lineB]
      (PyNode.module []) (by decide)
    simpa using h

end DevHoroscope
